import Mathlib

/-!
Verification of the NodeAssignment task-management API: a shallow embedding of
the role-based access-control core (permissions helpers, per-endpoint query
builders, task CRUD/assign handlers, auth middleware, cache service) together
with theorems about the authorization and caching behaviour.

Sources embedded: src/utils/permissions.ts, src/controllers/task.controller.ts,
src/controllers/analytics.controller.ts, src/controllers/auth.controller.ts
(register, updateUserRole), src/middleware/auth.middleware.ts,
src/middleware/rbac.middleware.ts, src/services/cacheService.ts,
src/utils/tokenManager.ts, src/models/Task.model.ts and User.model.ts.
External primitives (jwt cryptography, bcrypt, the stores) are abstracted:
verification of a JWT is an oracle returning the decoded payload or nothing,
exactly the observable behaviour of verifyToken.
-/

namespace NodeAssignment

/-- The three roles of the system (src/types: role is admin | manager | user). -/
inductive Role where
  | admin
  | manager
  | user
deriving DecidableEq, Repr

/-- The literal role string stored on a user document. -/
def roleStr : Role → String
  | .admin => "admin"
  | .manager => "manager"
  | .user => "user"

/-- JavaScript truthiness of an optional string field: `undefined` and the
empty string are falsy, every other string is truthy. -/
def truthy : Option String → Bool
  | none => false
  | some s => !(s == "")

/-- A user document (the fields of IUser consulted by the embedded code:
_id, username, email, role, optional team label; the password hash and
verification fields are outside the embedded logic). -/
structure IUser where
  _id : String
  username : String := ""
  email : String := ""
  role : Role
  team : Option String := none
deriving DecidableEq, Repr

/-- Task priority enum from Task.model.ts. -/
inductive Priority where
  | low
  | medium
  | high
deriving DecidableEq, Repr

/-- The literal priority string stored on a task document. -/
def prioStr : Priority → String
  | .low => "low"
  | .medium => "medium"
  | .high => "high"

/-- Task status enum from Task.model.ts. -/
inductive Status where
  | todo
  | inProgress
  | completed
  | overdue
deriving DecidableEq, Repr

/-- The literal status string stored on a task document. -/
def statusStr : Status → String
  | .todo => "todo"
  | .inProgress => "in-progress"
  | .completed => "completed"
  | .overdue => "overdue"

/-- A task document (ITask). Dates are modelled as natural-number timestamps. -/
structure ITask where
  _id : String
  title : String
  description : Option String := none
  dueDate : Option Nat := none
  priority : Priority := .medium
  status : Status := .todo
  createdBy : String
  assignedTo : Option String := none
  team : Option String := none
deriving DecidableEq, Repr

/-- permissions.ts canAccessTask: admin sees everything; a manager with a
(truthy) team label sees tasks of that team; anyone sees tasks they created
or are assigned to. -/
def canAccessTask (user : IUser) (task : ITask) : Bool :=
  if user.role == .admin then
    true
  else if user.role == .manager && truthy user.team && task.team == user.team then
    true
  else if task.createdBy == user._id || task.assignedTo == some user._id then
    true
  else
    false

/-- permissions.ts canAssignTask: admins and managers may assign tasks. -/
def canAssignTask (user : IUser) : Bool :=
  user.role == .admin || user.role == .manager

/-- permissions.ts canAssignRole: only admins, and only for a valid role
string. -/
def canAssignRole (user : IUser) (targetRole : String) : Bool :=
  if !(user.role == .admin) then
    false
  else if !(["admin", "manager", "user"].contains targetRole) then
    false
  else
    true

/-- A JSON response of the API: success with a task body, success with a
user record, success with a message, or an error with message and code. -/
inductive Resp where
  | okTask (status : Nat) (task : ITask)
  | okUser (status : Nat) (user : IUser)
  | okMsg (status : Nat) (message : String)
  | err (status : Nat) (message : String) (code : String)
deriving DecidableEq, Repr

/-- HTTP status of a response. -/
def Resp.status : Resp → Nat
  | .okTask s _ => s
  | .okUser s _ => s
  | .okMsg s _ => s
  | .err s _ _ => s

/-- The opaque 404 body used by getTaskById, updateTask, deleteTask and
assignTask both for a missing id and for a visible-but-denied task. -/
def taskNotFoundResp : Resp := .err 404 "Task not found" "NOT_FOUND"

/-- The 403 body of the canAssignTask capability gate in assignTask and
bulkAssignTasks. -/
def assignForbiddenResp : Resp :=
  .err 403 "You do not have permission to assign tasks" "FORBIDDEN"

/-- Task.findById over the embedded store. -/
def findTask (db : List ITask) (id : String) : Option ITask :=
  db.find? (fun t => t._id == id)

/-- Pre-save hook of Task.model.ts: when a due date exists, lies in the past
and the task is not completed, the status is coerced to overdue. -/
def applySaveHook (now : Nat) (t : ITask) : ITask :=
  match t.dueDate with
  | some d => if d < now && !(t.status == .completed) then { t with status := .overdue } else t
  | none => t

/-- A cached value: either a stored analytics overview or an opaque cached
blob (e.g. a task-list page). -/
inductive CacheVal where
  | ov (total completed pending overdue : Nat)
  | raw (s : String)
deriving DecidableEq, Repr

/-- The Redis cache, modelled as an association list from key to value. -/
abbrev Cache := List (String × CacheVal)

/-- cacheService.get. -/
def cacheGet (c : Cache) (key : String) : Option CacheVal :=
  (c.find? (fun kv => kv.1 == key)).map (fun kv => kv.2)

/-- cacheService.set (TTLs are not modelled; entries persist until deleted). -/
def cacheSet (c : Cache) (key : String) (v : CacheVal) : Cache :=
  (key, v) :: c.filter (fun kv => !(kv.1 == key))

/-- Does `s` start with `p`? (Computed on the character lists so that proofs
can evaluate it.) -/
def strStartsWith (p s : String) : Bool :=
  p.data.isPrefixOf s.data

/-- cacheService.delPattern for a pattern of the shape `p*`: drop every key
starting with `p`. -/
def delPattern (c : Cache) (p : String) : Cache :=
  c.filter (fun kv => !(strStartsWith p kv.1))

/-- cacheService.invalidateTaskCaches: delete the whole `tasks:*` and
`analytics:*` namespaces. -/
def invalidateTaskCaches (c : Cache) : Cache :=
  delPattern (delPattern c "tasks:") "analytics:"

/-- cacheService.getAnalyticsKey with an identifier. -/
def getAnalyticsKey (type identifier : String) : String :=
  "analytics:" ++ type ++ ":" ++ identifier

/-- The analytics-overview cache key built in analytics.controller.getOverview:
user id and role joined by a colon. -/
def overviewKey (u : IUser) : String :=
  getAnalyticsKey "overview" (u._id ++ ":" ++ roleStr u.role)

/-- Does the character list `p` occur as a contiguous sublist of `l`? -/
def containsSubList (p : List Char) : List Char → Bool
  | [] => p.isEmpty
  | c :: rest => p.isPrefixOf (c :: rest) || containsSubList p rest

/-- Case-insensitive substring test, modelling the case-insensitive regex
`new RegExp(q, i-flag)` of searchTasks applied to a plain search string. -/
def containsCI (pat s : String) : Bool :=
  containsSubList pat.toLower.data s.toLower.data

/-- Split a character list at every occurrence of `c` (the semantics of the
JS `String.split` with a one-character separator). -/
def splitCharList (c : Char) : List Char → List (List Char)
  | [] => [[]]
  | x :: xs =>
    let r := splitCharList c xs
    if x == c then [] :: r
    else
      match r with
      | [] => [[x]]
      | h :: t => (x :: h) :: t

/-- The comma split used by searchTasks on the status/priority parameters. -/
def splitOnComma (s : String) : List String :=
  (splitCharList ',' s.data).map (fun l => String.mk l)

/-- The MongoDB query object built by the task handlers, field by field; a JS
object has at most one value per key, so assigning `query.team` twice keeps
only the second value. `scopeOr` is the `$or: [createdBy, assignedTo]` clause
of the user-role scope; `text` is the `$and`-pushed title/description regex. -/
structure TaskQuery where
  scopeOr : Option String := none
  team : Option String := none
  status : Option (List String) := none
  priority : Option (List String) := none
  assignedTo : Option String := none
  createdBy : Option String := none
  text : Option String := none
  dueLte : Option Nat := none
  dueGte : Option Nat := none
deriving DecidableEq, Repr

/-- MongoDB semantics of the query object: a document matches when every
present field condition holds. -/
def matchesQuery (q : TaskQuery) (t : ITask) : Bool :=
  (match q.scopeOr with
   | none => true
   | some uid => t.createdBy == uid || t.assignedTo == some uid) &&
  (match q.team with
   | none => true
   | some s => t.team == some s) &&
  (match q.status with
   | none => true
   | some l => l.contains (statusStr t.status)) &&
  (match q.priority with
   | none => true
   | some l => l.contains (prioStr t.priority)) &&
  (match q.assignedTo with
   | none => true
   | some a => t.assignedTo == some a) &&
  (match q.createdBy with
   | none => true
   | some c => t.createdBy == c) &&
  (match q.text with
   | none => true
   | some pat =>
     containsCI pat t.title ||
       (match t.description with
        | some d => containsCI pat d
        | none => false)) &&
  (match q.dueLte with
   | none => true
   | some d => match t.dueDate with
     | some x => decide (x ≤ d)
     | none => false) &&
  (match q.dueGte with
   | none => true
   | some d => match t.dueDate with
     | some x => decide (d ≤ x)
     | none => false)

/-- The user-controlled filters of GET /api/tasks (getTasks): raw query-string
values for status and priority. -/
structure ListFilters where
  status : Option String := none
  priority : Option String := none
deriving DecidableEq, Repr

/-- Query building of task.controller.getTasks: role scope (user → creator or
assignee; manager with truthy team → team), then the status/priority filters. -/
def buildListQuery (u : IUser) (f : ListFilters) : TaskQuery :=
  let q0 : TaskQuery := {}
  let q1 :=
    if u.role == .user then { q0 with scopeOr := some u._id }
    else if u.role == .manager && truthy u.team then { q0 with team := u.team }
    else q0
  let q2 := match f.status with
    | some s => if !(s == "") then { q1 with status := some [s] } else q1
    | none => q1
  match f.priority with
  | some s => if !(s == "") then { q2 with priority := some [s] } else q2
  | none => q2

/-- The user-controlled filters of GET /api/tasks/search (searchTasks), raw
query-string values; dates are already-parsed timestamps. -/
structure SearchFilters where
  q : Option String := none
  status : Option String := none
  priority : Option String := none
  assignee : Option String := none
  creator : Option String := none
  team : Option String := none
  dueBefore : Option Nat := none
  dueAfter : Option Nat := none
deriving DecidableEq, Repr

/-- Query building of task.controller.searchTasks: the role-based base query
first, then each supplied filter assigned onto the same query object; note the
`team` filter writes the same `query.team` key the manager scope used. -/
def buildSearchQuery (u : IUser) (f : SearchFilters) : TaskQuery :=
  let q0 : TaskQuery := {}
  let q1 :=
    if u.role == .user then { q0 with scopeOr := some u._id }
    else if u.role == .manager && truthy u.team then { q0 with team := u.team }
    else q0
  let q2 := match f.q with
    | some s => if !(s == "") then { q1 with text := some s } else q1
    | none => q1
  let q3 := match f.status with
    | some s => if !(s == "") then { q2 with status := some (splitOnComma s) } else q2
    | none => q2
  let q4 := match f.priority with
    | some s => if !(s == "") then { q3 with priority := some (splitOnComma s) } else q3
    | none => q3
  let q5 := match f.assignee with
    | some a => if !(a == "") then { q4 with assignedTo := some a } else q4
    | none => q4
  let q6 := match f.creator with
    | some cr => if !(cr == "") then { q5 with createdBy := some cr } else q5
    | none => q5
  let q7 := match f.team with
    | some s => if !(s == "") then { q6 with team := some s } else q6
    | none => q6
  let q8 := match f.dueBefore with
    | some d => { q7 with dueLte := some d }
    | none => q7
  match f.dueAfter with
  | some d => { q8 with dueGte := some d }
  | none => q8

/-- Query building of analytics.controller.getOverview (role scope only). -/
def buildOverviewQuery (u : IUser) : TaskQuery :=
  let q0 : TaskQuery := {}
  if u.role == .user then { q0 with scopeOr := some u._id }
  else if u.role == .manager && truthy u.team then { q0 with team := u.team }
  else q0

/-- Task.countDocuments over the embedded store. -/
def countTasks (db : List ITask) (q : TaskQuery) : Nat :=
  (db.filter (fun t => matchesQuery q t)).length

/-- The overview aggregate computed by getOverview. The floating-point
completionRate field is derived from these counts and is not modelled. -/
def computeOverview (u : IUser) (db : List ITask) : CacheVal :=
  let q := buildOverviewQuery u
  .ov (countTasks db q)
    (countTasks db { q with status := some ["completed"] })
    (countTasks db { q with status := some ["todo", "in-progress"] })
    (countTasks db { q with status := some ["overdue"] })

/-- Result of the analytics-overview endpoint: the served data, the cached
flag of the response, and the cache afterwards. -/
structure OverviewOut where
  data : CacheVal
  cached : Bool
  cache : Cache
deriving DecidableEq, Repr

/-- analytics.controller.getOverview: serve the cached value when the key is
present, otherwise compute from the role-scoped query and store the result. -/
def getOverview (u : IUser) (db : List ITask) (c : Cache) : OverviewOut :=
  match cacheGet c (overviewKey u) with
  | some v => { data := v, cached := true, cache := c }
  | none =>
    let result := computeOverview u db
    { data := result, cached := false, cache := cacheSet c (overviewKey u) result }

/-- Result of a task mutation handler: the response, the task store
afterwards, and the cache afterwards. -/
structure HandlerOut where
  resp : Resp
  tasks : List ITask
  cache : Cache
deriving DecidableEq, Repr

/-- The body of POST /api/tasks; `team` is accepted in the JSON body but the
handler never destructures it. `assignedTo` and `dueDate` keep their JS
truthiness: `none` stands for an absent or falsy value. -/
structure CreatePayload where
  title : String
  description : Option String := none
  dueDate : Option Nat := none
  priority : Option Priority := none
  assignedTo : Option String := none
  team : Option String := none
deriving DecidableEq, Repr

/-- task.controller.createTask: a capability gate when assigning to someone
else, then creation with priority defaulted, assignee defaulted to the
creator, and the team copied from the creating user; caches are invalidated.
`newId` is the id the store generates for the new document. -/
def createTask (u : IUser) (p : CreatePayload) (newId : String) (now : Nat)
    (db : List ITask) (c : Cache) : HandlerOut :=
  if truthy p.assignedTo && !(p.assignedTo == some u._id) && !(canAssignTask u) then
    { resp := .err 403 "You do not have permission to assign tasks to others" "FORBIDDEN",
      tasks := db, cache := c }
  else
    let task := applySaveHook now
      { _id := newId
        title := p.title
        description := p.description
        dueDate := p.dueDate
        priority := p.priority.getD .medium
        status := .todo
        createdBy := u._id
        assignedTo := some (if truthy p.assignedTo then p.assignedTo.getD u._id else u._id)
        team := u.team }
    { resp := .okTask 201 task
      tasks := db ++ [task]
      cache := invalidateTaskCaches c }

/-- task.controller.getTaskById: missing id and failed canAccessTask both get
the identical opaque 404 body; read-only, so only the response is returned. -/
def getTaskById (u : IUser) (db : List ITask) (id : String) : Resp :=
  match findTask db id with
  | none => taskNotFoundResp
  | some task =>
    if !(canAccessTask u task) then taskNotFoundResp
    else .okTask 200 task

/-- The body of PUT /api/tasks/:id. The outer Option is field presence in the
JSON body; for description and dueDate the inner Option is the stored result
of the JS conditional (null/falsy clears the field). Title uses truthiness;
priority/status model only schema-valid values (invalid ones fail Mongoose
validation with a 400, which is outside the modelled logic). -/
structure UpdatePayload where
  title : Option String := none
  description : Option (Option String) := none
  dueDate : Option (Option Nat) := none
  priority : Option Priority := none
  status : Option Status := none
deriving DecidableEq, Repr

/-- task.controller.updateTask: find, opaque-404 on missing or denied, apply
the supplied fields, save (running the overdue hook), invalidate caches. -/
def updateTask (u : IUser) (p : UpdatePayload) (id : String) (now : Nat)
    (db : List ITask) (c : Cache) : HandlerOut :=
  match findTask db id with
  | none => { resp := taskNotFoundResp, tasks := db, cache := c }
  | some task =>
    if !(canAccessTask u task) then
      { resp := taskNotFoundResp, tasks := db, cache := c }
    else
      let t1 := match p.title with
        | some s => if !(s == "") then { task with title := s } else task
        | none => task
      let t2 := match p.description with
        | some d => { t1 with description := d }
        | none => t1
      let t3 := match p.dueDate with
        | some d => { t2 with dueDate := d }
        | none => t2
      let t4 := match p.priority with
        | some pr => { t3 with priority := pr }
        | none => t3
      let t5 := match p.status with
        | some s => { t4 with status := s }
        | none => t4
      let saved := applySaveHook now t5
      { resp := .okTask 200 saved
        tasks := db.map (fun x => if x._id == id then saved else x)
        cache := invalidateTaskCaches c }

/-- task.controller.deleteTask: find, opaque-404 on missing or denied, delete,
invalidate caches. -/
def deleteTask (u : IUser) (db : List ITask) (id : String) (c : Cache) : HandlerOut :=
  match findTask db id with
  | none => { resp := taskNotFoundResp, tasks := db, cache := c }
  | some task =>
    if !(canAccessTask u task) then
      { resp := taskNotFoundResp, tasks := db, cache := c }
    else
      { resp := .okMsg 200 "Task deleted successfully"
        tasks := db.filter (fun x => !(x._id == id))
        cache := invalidateTaskCaches c }

/-- task.controller.assignTask (PUT /api/tasks/:id/assign): capability gate,
then find, opaque-404 on missing or denied, set the assignee, save (running
the overdue hook), invalidate caches. -/
def assignTask (u : IUser) (db : List ITask) (id : String) (assignedTo : String)
    (now : Nat) (c : Cache) : HandlerOut :=
  if !(canAssignTask u) then
    { resp := assignForbiddenResp, tasks := db, cache := c }
  else
    match findTask db id with
    | none => { resp := taskNotFoundResp, tasks := db, cache := c }
    | some task =>
      if !(canAccessTask u task) then
        { resp := taskNotFoundResp, tasks := db, cache := c }
      else
        let saved := applySaveHook now { task with assignedTo := some assignedTo }
        { resp := .okTask 200 saved
          tasks := db.map (fun x => if x._id == id then saved else x)
          cache := invalidateTaskCaches c }

/-- task.controller.bulkAssignTasks (POST /api/tasks/bulk-assign): capability
gate, non-empty taskIds check, assignee existence check, then one updateMany
over `_id ∈ taskIds` setting the assignee. updateMany bypasses the save hook,
and the handler calls no cache invalidation. -/
def bulkAssignTasks (u : IUser) (users : List IUser) (db : List ITask)
    (taskIds : List String) (assignedTo : String) (c : Cache) : HandlerOut :=
  if !(canAssignTask u) then
    { resp := assignForbiddenResp, tasks := db, cache := c }
  else if taskIds.isEmpty then
    { resp := .err 400 "taskIds must be a non-empty array" "INVALID_INPUT",
      tasks := db, cache := c }
  else
    match users.find? (fun x => x._id == assignedTo) with
    | none =>
      { resp := .err 404 "Assignee user not found" "USER_NOT_FOUND",
        tasks := db, cache := c }
    | some _ =>
      let modifiedCount :=
        (db.filter (fun t => taskIds.contains t._id && !(t.assignedTo == some assignedTo))).length
      { resp := .okMsg 200
          ("Successfully assigned " ++ toString modifiedCount ++ " task(s)")
        tasks := db.map (fun t =>
          if taskIds.contains t._id then { t with assignedTo := some assignedTo } else t)
        cache := c }

/-- The decoded JWT payload (tokenManager.JwtPayload); the middleware
consults only its userId. -/
structure TokenPayload where
  userId : String
  email : String := ""
  role : String := ""
deriving DecidableEq, Repr

/-- tokenManager.extractTokenFromHeader (src/utils/tokenManager.ts): null
when the header is absent, falsy, or does not start with the Bearer scheme,
otherwise the substring after `Bearer ` — possibly the empty string; the
empty-token rejection happens in the middleware's own falsiness check, not
here. -/
def extractTokenFromHeader (authHeader : Option String) : Option String :=
  match authHeader with
  | none => none
  | some s =>
    if s == "" || !(strStartsWith "Bearer " s) then none
    else some (String.mk (s.data.drop 7))

/-- Outcome of the authenticate middleware: a 401/500 rejection or an attached
principal. -/
inductive AuthResult where
  | reject (status : Nat) (message : String) (code : String)
  | ok (u : IUser)
deriving DecidableEq, Repr

/-- auth.middleware.authenticate: four gates in order — presence (the
extracted token must be truthy), revocation, signature/expiry verification,
user existence — each short-circuiting with a 401.
tokenManager.isTokenBlacklisted is a membership test in the revoked-token
collection, embedded as `blacklist.contains`; tokenManager.verifyToken wraps
the external jwt.verify and returns the decoded payload or null, embedded as
the oracle `verify` (the cryptography itself is an external primitive). -/
def authenticate (header : Option String) (blacklist : List String)
    (verify : String → Option TokenPayload) (users : List IUser) : AuthResult :=
  let token := extractTokenFromHeader header
  if !(truthy token) then
    .reject 401 "Authentication required. Please provide a valid token" "NO_TOKEN"
  else
    let tok := token.getD ""
    if blacklist.contains tok then
      .reject 401 "Token has been invalidated. Please login again" "TOKEN_BLACKLISTED"
    else
      match verify tok with
      | none => .reject 401 "Invalid or expired token" "INVALID_TOKEN"
      | some decoded =>
        match users.find? (fun x => x._id == decoded.userId) with
        | none => .reject 401 "User not found" "USER_NOT_FOUND"
        | some user => .ok user

/-- rbac.middleware.requireRole: 401 without a principal, 403 when the
principal's role string is not among the allowed ones, otherwise pass. -/
def requireRole (roles : List String) (u : Option IUser) : Option Resp :=
  match u with
  | none => some (.err 401 "Authentication required" "UNAUTHORIZED")
  | some user =>
    if !(roles.contains (roleStr user.role)) then
      some (.err 403 ("Access denied. Required role(s): " ++ String.intercalate ", " roles)
        "FORBIDDEN")
    else none

/-- The body of POST /api/auth/register. -/
structure RegisterPayload where
  username : String
  email : String
  password : String
  role : Option String := none
  team : Option String := none
deriving DecidableEq, Repr

/-- Lowercase a string (the email normalisation of register and the user
schema), computed on the character list so that proofs can evaluate it. -/
def lowerStr (s : String) : String :=
  String.mk (s.data.map Char.toLower)

/-- The role computation of auth.controller.register: an explicit
admin/manager request is downgraded to user; otherwise the supplied role,
defaulting to user when absent or falsy. -/
def assignedRole (role : Option String) : String :=
  if truthy role && ["admin", "manager"].contains (role.getD "") then "user"
  else if truthy role then role.getD "" else "user"

/-- A role string from the schema enum parsed into the stored variant; both
callers reach it only with a validated admin/manager/user string. -/
def parseRole (s : String) : Role :=
  if s == "admin" then .admin
  else if s == "manager" then .manager
  else .user

/-- auth.controller.register: duplicate check on email or username, role
computed by assignedRole, then User.create — whose schema enum rejects any
role string outside admin/manager/user with a ValidationError — storing the
lower-cased email and the payload team. Token generation (jwt) and password
hashing are external primitives outside the response model; the 201 response
carries the stored user record. -/
def register (p : RegisterPayload) (users : List IUser) (newId : String) :
    Resp × List IUser :=
  if users.any (fun x => x.email == lowerStr p.email || x.username == p.username) then
    (.err 400 "User with this email or username already exists" "USER_EXISTS", users)
  else
    let r := assignedRole p.role
    if !(["admin", "manager", "user"].contains r) then
      (.err 400 "Validation failed" "VALIDATION_ERROR", users)
    else
      let user : IUser :=
        { _id := newId, username := p.username, email := lowerStr p.email,
          role := parseRole r, team := p.team }
      (.okUser 201 user, users ++ [user])

/-- auth.controller.updateUserRole, behind the authenticate and requireAdmin
route middleware of auth.routes.ts: the canAssignRole gate, the target
lookup, then the self-change check at the mutation site — a found target
whose id equals the requester's is rejected 400 SELF_ROLE_CHANGE — and
finally the role write. Returns the response and the user store afterwards. -/
def updateUserRole (u : IUser) (targetId : String) (newRole : String)
    (users : List IUser) : Resp × List IUser :=
  match requireRole ["admin"] (some u) with
  | some r => (r, users)
  | none =>
    if !(canAssignRole u newRole) then
      (.err 403 "Insufficient permissions to assign this role" "FORBIDDEN", users)
    else
      match users.find? (fun x => x._id == targetId) with
      | none => (.err 404 "User not found" "USER_NOT_FOUND", users)
      | some target =>
        if target._id == u._id then
          (.err 400 "Cannot change your own role" "SELF_ROLE_CHANGE", users)
        else
          let updated := { target with role := parseRole newRole }
          (.okUser 200 updated,
            users.map (fun x => if x._id == targetId then updated else x))

/-! Concrete sample principals, tasks and cache states used by the witnesses
and counterexamples below. -/

/-- An admin principal. -/
def alice : IUser := { _id := "a1", role := .admin }

/-- A manager of team Engineering. -/
def mark : IUser := { _id := "m1", role := .manager, team := some "Engineering" }

/-- A manager whose team label is absent. -/
def greg : IUser := { _id := "g1", role := .manager, team := none }

/-- A plain user in team Engineering. -/
def uma : IUser := { _id := "u1", role := .user, team := some "Engineering" }

/-- A plain user in team Sales, unrelated to the sample tasks. -/
def pete : IUser := { _id := "p1", role := .user, team := some "Sales" }

/-- An Engineering-team task, created and assigned by third parties. -/
def engTask : ITask :=
  { _id := "e1", title := "Fix build", createdBy := "c9", assignedTo := some "d1",
    team := some "Engineering" }

/-- A Sales-team task, created and assigned by third parties. -/
def salesTask : ITask :=
  { _id := "s1", title := "Quarterly targets", createdBy := "c9", assignedTo := some "d9",
    team := some "Sales" }

/-- C1: canAccessTask is true exactly for an admin, a manager whose team label
matches the task's, the creator, or the assignee; and this one predicate is
the gate of single-task read, update and delete — for an existing task each of
the three handlers succeeds exactly when canAccessTask holds. -/
theorem canAccessTask_matrix_and_single_task_gate
    (u : IUser) (t : ITask) (db : List ITask) (id : String)
    (p : UpdatePayload) (now : Nat) (c : Cache) :
    (canAccessTask u t = true ↔
      (u.role = .admin ∨
       (u.role = .manager ∧ ∃ s, u.team = some s ∧ s ≠ "" ∧ t.team = some s) ∨
       t.createdBy = u._id ∨ t.assignedTo = some u._id))
    ∧ (findTask db id = some t →
        ((getTaskById u db id = Resp.okTask 200 t) ↔ canAccessTask u t = true)
        ∧ ((updateTask u p id now db c).resp.status = 200 ↔ canAccessTask u t = true)
        ∧ ((deleteTask u db id c).resp.status = 200 ↔ canAccessTask u t = true)) := by
  constructor
  · rcases u with ⟨uid, uname, umail, urole, uteam⟩
    cases urole <;> cases uteam <;> simp [canAccessTask, truthy]
  · intro h
    refine ⟨?_, ?_, ?_⟩
    · cases hacc : canAccessTask u t <;>
        simp [getTaskById, h, hacc, taskNotFoundResp]
    · cases hacc : canAccessTask u t <;>
        simp [updateTask, h, hacc, taskNotFoundResp, Resp.status]
    · cases hacc : canAccessTask u t <;>
        simp [deleteTask, h, hacc, taskNotFoundResp, Resp.status]

/-- Witness for C1: the manager of team Engineering reads the Engineering task
through getTaskById, via the gate equivalence at a concrete store. -/
theorem canAccessTask_matrix_and_single_task_gate_w :
    getTaskById mark [engTask] "e1" = Resp.okTask 200 engTask := by
  have h := canAccessTask_matrix_and_single_task_gate mark engTask [engTask] "e1" {} 0 []
  exact (h.2 (by decide)).1.mpr (by decide)

/-- C2: in searchTasks the user-supplied team parameter is assigned onto the
same `query.team` key that holds the manager scope, replacing it. The manager
of team Engineering searching with team=Sales matches the Sales task (which
canAccessTask denies them), fails to match the Engineering task, and in fact
ends up with exactly the query an admin would get for the same search. -/
theorem searchTasks_team_param_overrides_manager_scope :
    matchesQuery (buildSearchQuery mark { team := some "Sales" }) salesTask = true
    ∧ matchesQuery (buildSearchQuery mark { team := some "Sales" }) engTask = false
    ∧ canAccessTask mark salesTask = false
    ∧ buildSearchQuery mark { team := some "Sales" }
        = buildSearchQuery alice { team := some "Sales" } := by
  decide

/-- Counterexample to C3: for the manager with no team label, the getTasks
scope query matches the Sales task even though that task is neither created
by nor assigned to them — so the produced scope is not the user-level
creator/assignee scope. -/
theorem noTeamManager_not_userScope_counterexample :
    matchesQuery (buildListQuery greg {}) salesTask = true
    ∧ (salesTask.createdBy == greg._id || salesTask.assignedTo == some greg._id) = false := by
  decide

/-- C3 amended: a manager whose team label is absent falls through both scope
branches in getTasks, searchTasks and the analytics overview, and is given
the unrestricted admin scope — identical queries to an admin with the same
filters — rather than the user-level creator/assignee scope. -/
theorem noTeamManager_gets_unrestricted_scope (u : IUser)
    (hrole : u.role = .manager) (hteam : u.team = none) :
    (∀ f : ListFilters, buildListQuery u f = buildListQuery { u with role := .admin } f)
    ∧ (∀ f : SearchFilters, buildSearchQuery u f = buildSearchQuery { u with role := .admin } f)
    ∧ buildOverviewQuery u = buildOverviewQuery { u with role := .admin } := by
  refine ⟨fun f => ?_, fun f => ?_, ?_⟩ <;>
    simp [buildListQuery, buildSearchQuery, buildOverviewQuery, hrole, hteam, truthy]

/-- Witness for C3 amended: the teamless manager's list query coincides with
the admin one at a concrete instance. -/
theorem noTeamManager_gets_unrestricted_scope_w :
    buildListQuery greg {} = buildListQuery { greg with role := .admin } {} :=
  (noTeamManager_gets_unrestricted_scope greg rfl rfl).1 {}

/-- Counterexample to C4: the Engineering manager cannot see the Sales task
(canAccessTask is false), yet bulk-assign with that task id succeeds and
changes its assignee. -/
theorem bulkAssign_ignores_visibility_counterexample :
    canAccessTask mark salesTask = false
    ∧ (bulkAssignTasks mark [pete] [salesTask] ["s1"] "p1" []).resp.status = 200
    ∧ (bulkAssignTasks mark [pete] [salesTask] ["s1"] "p1" []).tasks
        = [{ salesTask with assignedTo := some "p1" }] := by
  decide

/-- C4 amended: single assign changes nothing when the invoker fails the
visibility predicate for the found task; bulk assign, once the invoker has
the role capability and the assignee exists, rewrites the assignee of every
stored task whose id is listed, with no per-task visibility check. -/
theorem assign_visibility_only_gates_single_assign
    (u : IUser) (db : List ITask) (id aid : String) (now : Nat) (c : Cache)
    (users : List IUser) (ids : List String) :
    (∀ t, findTask db id = some t → canAccessTask u t = false →
      (assignTask u db id aid now c).tasks = db)
    ∧ (canAssignTask u = true → ids.isEmpty = false →
        (users.find? (fun x => x._id == aid)).isSome = true →
        (bulkAssignTasks u users db ids aid c).tasks
          = db.map (fun t =>
              if ids.contains t._id then { t with assignedTo := some aid } else t)) := by
  constructor
  · intro t ht hacc
    cases hcap : canAssignTask u <;> simp [assignTask, hcap, ht, hacc]
  · intro hcap hne hfind
    obtain ⟨a, ha⟩ := Option.isSome_iff_exists.mp hfind
    simp [bulkAssignTasks, hcap, hne, ha]

/-- Witness for C4 amended: at a concrete store, the invisible Sales task is
untouched by single assign but rewritten by bulk assign. -/
theorem assign_visibility_only_gates_single_assign_w :
    (assignTask mark [salesTask] "s1" "p1" 0 []).tasks = [salesTask]
    ∧ (bulkAssignTasks mark [pete] [salesTask] ["s1"] "p1" []).tasks
        = [{ salesTask with assignedTo := some "p1" }] := by
  have h := assign_visibility_only_gates_single_assign mark [salesTask] "s1" "p1" 0 [] [pete] ["s1"]
  refine ⟨h.1 salesTask (by decide) (by decide), ?_⟩
  rw [h.2 (by decide) (by decide) (by decide)]
  decide

/-- The stale analytics value cached for user u1 before the sample mutation:
it equals what getOverview computed for them over the pre-mutation store. -/
def ov0 : CacheVal := .ov 0 0 0 0

/-- A cache holding the pre-mutation analytics overview for user u1 and a
cached task-list page. -/
def staleCache : Cache :=
  [(overviewKey uma, ov0), ("tasks:list:u1:1:Zm9v", CacheVal.raw "page1")]

/-- The bulk-assign mutation run against that cache: the admin assigns task e1
to user u1. -/
def bulkOut : HandlerOut :=
  bulkAssignTasks alice [uma] [engTask] ["e1"] "u1" staleCache

/-- C5 at its failing input: the cached value is exactly the overview of the
pre-mutation store; the bulk assign succeeds and mutates the task, yet leaves
the cache untouched, so the next analytics-overview read for the same scope
serves the pre-mutation value (cached = true) although recomputation would
differ; single assign on the same store does invalidate both namespaces. -/
theorem bulkAssign_serves_stale_analytics :
    computeOverview uma [engTask] = ov0
    ∧ bulkOut.resp.status = 200
    ∧ bulkOut.tasks = [{ engTask with assignedTo := some "u1" }]
    ∧ bulkOut.cache = staleCache
    ∧ (getOverview uma bulkOut.tasks bulkOut.cache).cached = true
    ∧ (getOverview uma bulkOut.tasks bulkOut.cache).data = ov0
    ∧ computeOverview uma bulkOut.tasks ≠ ov0
    ∧ (assignTask alice [engTask] "e1" "u1" 0 staleCache).cache = [] := by
  decide

/-- C6: authenticate applies presence, revocation, verification and existence
in order, rejecting 401 at the first failing gate; a principal is attached
exactly when all four pass. The revocation conjunct holds for every `verify`
oracle, so a revoked token is rejected even when its signature and expiry are
valid; the existence conjunct shows a deleted user's valid, non-revoked token
never resolves to a principal. -/
theorem authenticate_gate_order (header : Option String) (bl : List String)
    (verify : String → Option TokenPayload) (users : List IUser) :
    (∀ u, authenticate header bl verify users = .ok u ↔
      ∃ tok, extractTokenFromHeader header = some tok ∧ tok ≠ "" ∧ bl.contains tok = false ∧
        ∃ pl, verify tok = some pl ∧ users.find? (fun x => x._id == pl.userId) = some u)
    ∧ (truthy (extractTokenFromHeader header) = false →
        authenticate header bl verify users
          = .reject 401 "Authentication required. Please provide a valid token" "NO_TOKEN")
    ∧ (∀ tok, extractTokenFromHeader header = some tok → tok ≠ "" → bl.contains tok = true →
        authenticate header bl verify users
          = .reject 401 "Token has been invalidated. Please login again" "TOKEN_BLACKLISTED")
    ∧ (∀ tok, extractTokenFromHeader header = some tok → tok ≠ "" → bl.contains tok = false →
        verify tok = none →
        authenticate header bl verify users
          = .reject 401 "Invalid or expired token" "INVALID_TOKEN")
    ∧ (∀ tok pl, extractTokenFromHeader header = some tok → tok ≠ "" → bl.contains tok = false →
        verify tok = some pl → users.find? (fun x => x._id == pl.userId) = none →
        authenticate header bl verify users
          = .reject 401 "User not found" "USER_NOT_FOUND") := by
  refine ⟨?_, ?_, ?_, ?_, ?_⟩
  · intro u
    cases hex : extractTokenFromHeader header
    · simp [authenticate, hex, truthy]
    · rename_i tok
      by_cases hne : tok = ""
      · subst hne
        simp [authenticate, hex, truthy]
      · cases hbl : bl.contains tok
        · have hbl' : tok ∉ bl := by simpa using hbl
          cases hv : verify tok
          · simp [authenticate, hex, truthy, hne, hbl', hv]
          · rename_i pl
            cases hf : users.find? (fun x => x._id == pl.userId) <;>
              simp [authenticate, hex, truthy, hne, hbl', hv, hf]
        · have hbl' : tok ∈ bl := by simpa using hbl
          simp [authenticate, hex, truthy, hne, hbl']
  · intro h
    simp [authenticate, h]
  · intro tok h1 hne h2
    have h2' : tok ∈ bl := by simpa using h2
    simp [authenticate, h1, truthy, hne, h2']
  · intro tok h1 hne h2 h3
    have h2' : tok ∉ bl := by simpa using h2
    simp [authenticate, h1, truthy, hne, h2', h3]
  · intro tok pl h1 hne h2 h3 h4
    have h2' : tok ∉ bl := by simpa using h2
    simp [authenticate, h1, truthy, hne, h2', h3, h4]

/-- Witness for C6: a revoked token whose verification would succeed and whose
user exists is still rejected as blacklisted. -/
theorem authenticate_gate_order_w :
    authenticate (some "Bearer tok1") ["tok1"]
        (fun _ => some { userId := "u1" }) [uma]
      = .reject 401 "Token has been invalidated. Please login again" "TOKEN_BLACKLISTED" := by
  have h := authenticate_gate_order (some "Bearer tok1") ["tok1"]
    (fun _ => some { userId := "u1" }) [uma]
  exact h.2.2.1 "tok1" (by decide) (by decide) (by decide)

/-- Counterexample to C7: an existing task the user-role principal p1 cannot
see, requested through the assign endpoint, is answered with the 403
capability response, not the opaque 404. -/
theorem assign_denial_is_403_for_plain_user_counterexample :
    findTask [engTask] "e1" = some engTask
    ∧ canAccessTask pete engTask = false
    ∧ (assignTask pete [engTask] "e1" "p1" 0 []).resp = assignForbiddenResp
    ∧ assignForbiddenResp.status = 403
    ∧ taskNotFoundResp.status = 404 := by
  decide

/-- C7 amended: read, update and delete answer visibility denial on an
existing task with the identical opaque 404 body used for a nonexistent id,
for every principal; assign does the same for principals with the assignment
capability, while a principal without that capability receives the capability
403 for every id, existing, denied or missing alike. -/
theorem visibility_denial_is_opaque_notFound
    (u : IUser) (db : List ITask) (id aid : String) (p : UpdatePayload)
    (now : Nat) (c : Cache) :
    (∀ t, findTask db id = some t → canAccessTask u t = false →
      getTaskById u db id = taskNotFoundResp
      ∧ (updateTask u p id now db c).resp = taskNotFoundResp
      ∧ (deleteTask u db id c).resp = taskNotFoundResp
      ∧ (canAssignTask u = true → (assignTask u db id aid now c).resp = taskNotFoundResp))
    ∧ (findTask db id = none →
        getTaskById u db id = taskNotFoundResp
        ∧ (updateTask u p id now db c).resp = taskNotFoundResp
        ∧ (deleteTask u db id c).resp = taskNotFoundResp
        ∧ (canAssignTask u = true → (assignTask u db id aid now c).resp = taskNotFoundResp))
    ∧ (canAssignTask u = false →
        (assignTask u db id aid now c).resp = assignForbiddenResp) := by
  refine ⟨?_, ?_, ?_⟩
  · intro t ht hacc
    refine ⟨?_, ?_, ?_, fun hcap => ?_⟩
    · simp [getTaskById, ht, hacc]
    · simp [updateTask, ht, hacc]
    · simp [deleteTask, ht, hacc]
    · simp [assignTask, ht, hacc, hcap]
  · intro h
    refine ⟨?_, ?_, ?_, fun hcap => ?_⟩
    · simp [getTaskById, h]
    · simp [updateTask, h]
    · simp [deleteTask, h]
    · simp [assignTask, h, hcap]
  · intro hcap
    simp [assignTask, hcap]

/-- Witness for C7 amended: concrete instances of all three conjuncts — the
Sales user denied on the Engineering task, a missing id, and the capability
403 for a plain user. -/
theorem visibility_denial_is_opaque_notFound_w :
    getTaskById pete [engTask] "e1" = taskNotFoundResp
    ∧ getTaskById pete [engTask] "zz" = taskNotFoundResp
    ∧ (assignTask pete [engTask] "e1" "p1" 0 []).resp = assignForbiddenResp := by
  have h1 := visibility_denial_is_opaque_notFound pete [engTask] "e1" "p1" {} 0 []
  have h2 := visibility_denial_is_opaque_notFound pete [engTask] "zz" "p1" {} 0 []
  exact ⟨(h1.1 engTask (by decide) (by decide)).1, (h2.2.1 (by decide)).1,
    h1.2.2 (by decide)⟩

/-- C8: a role-update request whose target id equals the requester's own id is
never a 200 and leaves the user store unchanged, for every requester role and
every requested role string; in particular, when the requester is an admin,
the requested role is one canAssignRole allows, and the target is found, it
is the mutation-site self-change check that fires, with 400
SELF_ROLE_CHANGE — independent of (and despite) canAssignRole permitting the
assignment. -/
theorem selfRoleChange_always_rejected (u : IUser) (r : String) (users : List IUser) :
    (updateUserRole u u._id r users).2 = users
    ∧ (updateUserRole u u._id r users).1.status ≠ 200
    ∧ (canAssignRole u r = true →
        (users.find? (fun x => x._id == u._id)).isSome = true →
        (updateUserRole u u._id r users).1
          = Resp.err 400 "Cannot change your own role" "SELF_ROLE_CHANGE") := by
  cases hr : u.role
  case admin =>
    by_cases hca : canAssignRole u r = true
    · cases hf : users.find? (fun x => x._id == u._id)
      · refine ⟨?_, ?_, ?_⟩ <;>
          simp [updateUserRole, requireRole, roleStr, hr, hca, hf, Resp.status]
      · rename_i target
        have hp := List.find?_some hf
        refine ⟨?_, ?_, ?_⟩ <;>
          simp [updateUserRole, requireRole, roleStr, hr, hca, hf, hp, Resp.status]
    · rw [Bool.not_eq_true] at hca
      refine ⟨?_, ?_, ?_⟩ <;>
        simp [updateUserRole, requireRole, roleStr, hr, hca, Resp.status]
  case manager =>
    refine ⟨?_, ?_, ?_⟩ <;>
      simp [updateUserRole, requireRole, roleStr, canAssignRole, hr, Resp.status]
  case user =>
    refine ⟨?_, ?_, ?_⟩ <;>
      simp [updateUserRole, requireRole, roleStr, canAssignRole, hr, Resp.status]

/-- Witness for C8: the admin self-targeting a role update they could grant to
anyone else is rejected 400 SELF_ROLE_CHANGE with the store unchanged. -/
theorem selfRoleChange_always_rejected_w :
    (updateUserRole alice alice._id "manager" [alice]).2 = [alice]
    ∧ (updateUserRole alice alice._id "manager" [alice]).1
        = Resp.err 400 "Cannot change your own role" "SELF_ROLE_CHANGE" := by
  have h := selfRoleChange_always_rejected alice "manager" [alice]
  exact ⟨h.1, h.2.2 (by decide) (by decide)⟩

/-- The role register stores always parses to the user variant: an explicit
admin/manager request is downgraded by assignedRole, and every other string
— the literal user, an absent role, or an arbitrary string — is parsed by
the user default of parseRole. -/
theorem parseRole_assignedRole (r : Option String) :
    parseRole (assignedRole r) = Role.user := by
  rcases r with _ | s
  · simp [assignedRole, truthy, parseRole]
  · by_cases ha : s = "admin"
    · subst ha; simp [assignedRole, truthy, parseRole]
    · by_cases hm : s = "manager"
      · subst hm; simp [assignedRole, truthy, parseRole]
      · by_cases he : s = ""
        · subst he; simp [assignedRole, truthy, parseRole]
        · simp [assignedRole, truthy, parseRole, he, ha, hm]

/-- register either rejects leaving the store unchanged, or returns 201 with
the stored record, whose role is user. -/
theorem register_cases (p : RegisterPayload) (users : List IUser) (newId : String) :
    (∃ e : String × String, register p users newId = (Resp.err 400 e.1 e.2, users))
    ∨ ∃ u, register p users newId = (Resp.okUser 201 u, users ++ [u])
        ∧ u.role = Role.user := by
  unfold register
  split
  · exact Or.inl ⟨("User with this email or username already exists", "USER_EXISTS"), rfl⟩
  · dsimp only
    split
    · exact Or.inl ⟨("Validation failed", "VALIDATION_ERROR"), rfl⟩
    · exact Or.inr ⟨_, rfl, parseRole_assignedRole p.role⟩

/-- C9: every user record register returns (201 body) or appends to the store
carries role user — the admin/manager payload downgrade plus the parse
default leave user as the only storable role, so public self-registration can
never create an elevated principal. -/
theorem register_never_creates_elevated_role
    (p : RegisterPayload) (users : List IUser) (newId : String) :
    (∀ u', (register p users newId).1 = Resp.okUser 201 u' → u'.role = Role.user)
    ∧ (∀ u', (register p users newId).2 = users ++ [u'] → u'.role = Role.user) := by
  rcases register_cases p users newId with ⟨e, he⟩ | ⟨u, hu, hrole⟩
  · constructor <;> intro u' h <;> rw [he] at h
    · simp at h
    · simp only [] at h
      have hlen := congrArg List.length h
      simp at hlen
  · constructor <;> intro u' h <;> rw [hu] at h <;> simp at h <;> subst h <;>
      exact hrole

/-- The payload and stored record of the sample registration below: an
explicit admin request downgraded to a stored user role. -/
def evePayload : RegisterPayload :=
  { username := "eve", email := "Eve@Example.com", password := "Secret123",
    role := some "admin" }

/-- The record the sample registration stores. -/
def eveStored : IUser :=
  { _id := "u9", username := "eve", email := "eve@example.com", role := .user }

/-- Witness for C9: registering with role admin returns 201 with a stored
record of role user. -/
theorem register_never_creates_elevated_role_w :
    eveStored.role = Role.user
    ∧ (register evePayload [] "u9").1 = Resp.okUser 201 eveStored := by
  refine ⟨(register_never_creates_elevated_role evePayload [] "u9").1 eveStored (by decide),
    by decide⟩

/-- applySaveHook only ever rewrites the status field. -/
theorem applySaveHook_fields (now : Nat) (t : ITask) :
    (applySaveHook now t)._id = t._id ∧ (applySaveHook now t).title = t.title
    ∧ (applySaveHook now t).team = t.team
    ∧ (applySaveHook now t).createdBy = t.createdBy
    ∧ (applySaveHook now t).assignedTo = t.assignedTo := by
  unfold applySaveHook
  cases t.dueDate <;> simp <;> split <;> simp

/-- The creator branch of canAccessTask: a task one created is always
accessible. -/
theorem canAccessTask_of_createdBy (u : IUser) (t : ITask) (h : t.createdBy = u._id) :
    canAccessTask u t = true := by
  simp [canAccessTask, h]

/-- C10: whenever createTask succeeds, the stored task's team label is the
creating principal's (a team value in the payload is ignored — the handler is
literally insensitive to it), a missing assignee defaults to the creator, the
creator reference is the principal, and the created task satisfies the
creator's own visibility predicate. -/
theorem createTask_creates_visible_task
    (u : IUser) (p : CreatePayload) (newId : String) (now : Nat)
    (db : List ITask) (c : Cache) (x : Option String) :
    (∀ t, (createTask u p newId now db c).resp = Resp.okTask 201 t →
      t.team = u.team ∧ t.createdBy = u._id
      ∧ (p.assignedTo = none → t.assignedTo = some u._id)
      ∧ canAccessTask u t = true)
    ∧ createTask u p newId now db c = createTask u { p with team := x } newId now db c := by
  constructor
  · intro t ht
    by_cases hcond :
        (truthy p.assignedTo && !(p.assignedTo == some u._id) && !(canAssignTask u)) = true
    · simp [createTask, hcond] at ht
    · rw [Bool.not_eq_true] at hcond
      simp only [createTask, hcond, Bool.false_eq_true, if_false, Resp.okTask.injEq] at ht
      obtain ⟨-, ht⟩ := ht
      subst ht
      obtain ⟨-, -, hteam, hcb, hasg⟩ := applySaveHook_fields now
        { _id := newId, title := p.title, description := p.description,
          dueDate := p.dueDate, priority := p.priority.getD .medium, status := .todo,
          createdBy := u._id,
          assignedTo := some (if truthy p.assignedTo then p.assignedTo.getD u._id else u._id),
          team := u.team }
      refine ⟨hteam, hcb, fun hnone => ?_, canAccessTask_of_createdBy u _ hcb⟩
      rw [hasg]
      simp [hnone, truthy]
  · rcases p with ⟨title, desc, due, prio, asg, team⟩
    simp [createTask]

/-- The task the sample creation below stores. -/
def newTask : ITask :=
  { _id := "n1", title := "New task", createdBy := "m1", assignedTo := some "m1",
    team := some "Engineering" }

/-- Witness for C10: the Engineering manager creates a task with no assignee;
it lands in their team, assigned to them, and visible to them. -/
theorem createTask_creates_visible_task_w :
    (createTask mark { title := "New task" } "n1" 0 [] []).resp = Resp.okTask 201 newTask
    ∧ newTask.team = mark.team
    ∧ newTask.assignedTo = some mark._id
    ∧ canAccessTask mark newTask = true := by
  have h := (createTask_creates_visible_task mark { title := "New task" } "n1" 0 [] [] none).1
    newTask (by decide)
  exact ⟨by decide, h.1, h.2.2.1 (by decide), h.2.2.2⟩

end NodeAssignment
